import Mathlib

/-
Shallow embedding of the Group30Agent negotiation decision core
(src/agents/group_30_agent/group_30_agent.py).

Modelling conventions:
- Python floats and Decimals are modelled as exact rationals.
- The externally supplied linear-additive utility profile is an abstract
  parameter myU : Bid -> Q (profile.getUtility).
- The opponent model object is determined by the sequence of observed
  opponent bids (OpponentModel.update is called exactly once per received
  offer), so its predicted utility is abstracted as a parameter
  opU : List Bid -> Bid -> Q, applied to the current received-bid history.
  The model object exists iff at least one offer has been observed, i.e.
  iff the received history is nonempty; code paths that would call the
  model while it is None are modelled as failures.
- Fallible handler code returns Option: a result of none models an
  unhandled Python exception (AttributeError on None, ZeroDivisionError,
  IndexError) escaping the handler.
- Python list.sort is a stable in-place sort; it is modelled by a stable
  insertion sort (pySort).  The frequency model, logging, printing and the
  save-data placeholder have no influence on any decision and are omitted.
-/

namespace G30

/-- Terminal recognized opponent archetypes: HH, CC, TT, R. -/
inductive Strat : Type where
  | hh | cc | tt | r
deriving DecidableEq

/-- Hypothesis sets appearing in the code: the set values read
{HH,R}, {CC,R,TT}, {TT,R}, {CC,R}. -/
inductive Hyp : Type where
  | hhR | ccRtt | ttR | ccR
deriving DecidableEq

/-- Move labels returned by the move classifiers. -/
inductive MoveType : Type where
  | silent | concession | largeConcession | smallConcession
  | selfish | smallSelfish | unknown
deriving DecidableEq

/-- Stable insertion of x in front of the first y with le x y
(auxiliary for pySort). -/
def pyInsert {α : Type} (le : α → α → Bool) (x : α) : List α → List α
  | [] => [x]
  | y :: ys => if le x y then x :: y :: ys else y :: pyInsert le x ys

/-- Stable sort w.r.t. a boolean weak order, modelling Python list.sort:
elements whose keys compare equal keep their original relative order. -/
def pySort {α : Type} (le : α → α → Bool) : List α → List α
  | [] => []
  | x :: xs => pyInsert le x (pySort le xs)

/-- Python sorted with key, ascending (list.sort(key = k)). -/
def pySortKeyAsc {α : Type} (k : α → ℚ) (l : List α) : List α :=
  pySort (fun a b => decide (k a ≤ k b)) l

/-- Python sorted with key, descending (list.sort(key = k, reverse = True)),
which is also stable. -/
def pySortKeyDesc {α : Type} (k : α → ℚ) (l : List α) : List α :=
  pySort (fun a b => decide (k b ≤ k a)) l

/-- Python max(values, default = d). -/
def pyMaxD (l : List ℚ) (d : ℚ) : ℚ :=
  match l.max? with
  | some m => m
  | none => d

/-- Mutable session state owned by the controller (the Group30Agent
instance fields that the decision logic reads or writes). -/
structure GState (Bid : Type) where
  lastReceivedBid : Option Bid
  lastLastReceivedBid : Option Bid
  lastOfferedBid : Option Bid
  opponentStubborn : Bool
  receivedBids : List Bid
  socialWelfareBid : Option Bid
  socialWelfareValue : ℚ
  recognitionHBidHistory : List Bid
  recognitionOBidHistory : List Bid
  opponentHypothesis : Option Hyp
  recognizedStrategy : Option Strat
  bestCandidateSpace : List Bid
  bestCandidateSpaceInit : Bool
  bestCandidateSpaceSecond : Bool
  bestCandidateSpaceThird : Bool
  bestCandidateSpaceFinal : Bool
deriving DecidableEq

/-- Outbound action emitted on our turn.  An offer payload of none models
Offer(self.me, None), which the code can emit when the candidate is
Python None and no bid has been received. -/
inductive GAction (Bid : Type) : Type where
  | accept (b : Bid)
  | offer (b : Option Bid)
deriving DecidableEq

/-- Fields of the state as set up in Group30Agent.__init__. -/
def initState {Bid : Type} : GState Bid where
  lastReceivedBid := none
  lastLastReceivedBid := none
  lastOfferedBid := none
  opponentStubborn := false
  receivedBids := []
  socialWelfareBid := none
  socialWelfareValue := 0
  recognitionHBidHistory := []
  recognitionOBidHistory := []
  opponentHypothesis := none
  recognizedStrategy := none
  bestCandidateSpace := []
  bestCandidateSpaceInit := false
  bestCandidateSpaceSecond := false
  bestCandidateSpaceThird := false
  bestCandidateSpaceFinal := false

/-- The session-state fields that neither find_bid nor my_turn ever
writes, bundled as one tuple so that preservation is a single equality:
probe-bid history, opponent recognition history, hypothesis, recognized
label, last received bid, social-welfare value, received history and
social-welfare bid. -/
def coreFields {Bid : Type} (s : GState Bid) :
    List Bid × List Bid × Option Hyp × Option Strat × Option Bid × ℚ × List Bid × Option Bid :=
  (s.recognitionHBidHistory, s.recognitionOBidHistory, s.opponentHypothesis,
    s.recognizedStrategy, s.lastReceivedBid, s.socialWelfareValue,
    s.receivedBids, s.socialWelfareBid)

/-- Result of one find_bid call: the returned value (none models the
Python None that the endgame branch can return) together with the two
state fields find_bid can mutate, the candidate space (the opening branch
sorts it in place) and the stubborn flag (set in the endgame branch). -/
structure FBOut (Bid : Type) where
  ret : Option Bid
  space : List Bid
  stubborn : Bool
deriving DecidableEq

/-- Protocol events the controller reacts to.  An offer event carries the
progress read during recognition scoring; a turn event carries the
progress read in find_bid / accept_condition and the fresh random sample
consumed by any initialize_bid_space call made during that turn. -/
inductive GEvent (Bid : Type) : Type where
  | offer (b : Bid) (p : ℚ)
  | yourTurn (p : ℚ) (sample : List Bid)

section Model

variable {Bid : Type} [DecidableEq Bid]
variable (myU : Bid → ℚ) (opU : List Bid → Bid → ℚ)

/-- score_bid with alpha = 0.9 and eps = 0.1 (progress ** (1 / eps) is
progress ^ 10); the opponent term is added only when the opponent model
exists, i.e. when at least one offer has been received. -/
def scoreBid (hist : List Bid) (p : ℚ) (b : Bid) : ℚ :=
  let timePressure : ℚ := 1 - p ^ (10 : ℕ)
  let base : ℚ := 9 / 10 * timePressure * myU b
  if hist.isEmpty then base
  else base + (1 - 9 / 10 * timePressure) * opU hist b

/-- The dominates helper: bid1 is at least as good in both utilities and
strictly better in one, for a fixed own-utility map uf and predicted
opponent-utility map opf. -/
def dominates (uf opf : Bid → ℚ) (b1 b2 : Bid) : Bool :=
  decide ((uf b2 ≤ uf b1 ∧ opf b2 ≤ opf b1) ∧ (uf b2 < uf b1 ∨ opf b2 < opf b1))

/-- The pareto-filter loop: keep each bid that no other member of the
input list dominates. -/
def paretoFilter (uf opf : Bid → ℚ) (bids : List Bid) : List Bid :=
  bids.filter (fun b => ! bids.any (fun other => decide (other ≠ b) && dominates uf opf other b))

/-- Steps 1 of initialize_bid_space after the Pareto filter: if fewer
than 150 bids survive, append the first (150 - l) top candidates (taken
from the front of the own-utility-sorted list, whether or not they are
already in the Pareto set); if the result is empty fall back to the whole
top-candidate list. -/
def paretoPad (uf opf : Bid → ℚ) (top : List Bid) : List Bid :=
  let pareto := paretoFilter uf opf top
  let padded := if pareto.length < 150 then pareto ++ top.take (150 - pareto.length) else pareto
  if padded.isEmpty then top else padded

/-- The congestion score of a bid: how many bids of the sample lie within
utility distance 0.02 on both dimensions. -/
def congestionScore (uf opf : Bid → ℚ) (b : Bid) (l : List Bid) : ℚ :=
  ((l.filter (fun x => decide (|uf x - uf b| < 1 / 50 ∧ |opf x - opf b| < 1 / 50))).length : ℚ)

/-- initialize_bid_space.  The 5000-element uniform random sample is an
external input (the randomness source is out of scope), passed in as the
sample argument; the rest follows the code: sort by own utility
descending, keep 300, and either refine (recognized non-random strategy
and more than 100 received offers) or keep the top 150 by own utility. -/
def initBidSpace (s : GState Bid) (sample : List Bid) : GState Bid :=
  let sampleSorted := pySortKeyDesc myU sample
  let top := sampleSorted.take 300
  let strategic : Bool :=
    (match s.recognizedStrategy with
     | some st => decide (st ≠ Strat.r)
     | none => false) && decide (100 < s.receivedBids.length)
  if strategic then
    let opf := opU s.receivedBids
    let pareto := paretoPad myU opf top
    let cong := fun b => congestionScore myU opf b sampleSorted
    let maxCong := pyMaxD (pareto.map cong) 1
    let scored := pareto.map
      (fun b => ((7 : ℚ) / 10 * (myU b * opf b) + (3 : ℚ) / 10 * (cong b / maxCong), b))
    let sortedScored := pySort (fun a b : ℚ × Bid => decide (b.1 ≤ a.1)) scored
    { s with bestCandidateSpace := (sortedScored.take 150).map Prod.snd }
  else
    { s with bestCandidateSpace := top.take 150 }

/-- classify_opponent_move: diff is the own-utility delta of the
opponent move, dff the predicted-opponent-utility delta; thresholds are
silent 0.002, concession 0.03, selfish 0.01.  The selfish branch with
dff below 0.01 falls through to the final unknown return. -/
def classifyOpponentMove (hist : List Bid) (old new : Bid) : MoveType :=
  let diff := myU new - myU old
  let dff := opU hist new - opU hist old
  if |diff| ≤ 1 / 500 then .silent
  else if 3 / 100 < diff then .concession
  else if 0 < dff then
    (if 1 / 100 ≤ dff then .selfish else .unknown)
  else
    (if 0 ≤ diff then .smallConcession else .unknown)

/-- update_strategy_recognition, reduced to its effect on the hypothesis
and the recognized label (the only fields it writes).  Arguments: the
received history and progress (for score_bid), the current hypothesis and
label, and the two recognition histories. -/
def updateSRCore (hist : List Bid) (p : ℚ) (hyp0 : Option Hyp) (rec0 : Option Strat)
    (oH hH : List Bid) : Option Hyp × Option Strat :=
  let hyp1 : Option Hyp :=
    match hH, oH, hyp0 with
    | h0 :: h1 :: _, o0 :: o1 :: _, none =>
      let sigmaOpp := scoreBid myU opU hist p o1 - scoreBid myU opU hist p o0
      let sigmaSelf := scoreBid myU opU hist p h1 - scoreBid myU opU hist p h0
      let mt := classifyOpponentMove myU opU hist o0 o1
      if sigmaOpp ≤ |sigmaSelf| ∧
          (mt = .silent ∨ mt = .concession ∨ mt = .smallConcession ∨ mt = .selfish) then
        some Hyp.hhR
      else if sigmaSelf ≤ sigmaOpp then some Hyp.ccRtt
      else none
    | _, _, _ => hyp0
  match hH, oH, rec0 with
  | _ :: h1 :: h2 :: _, _ :: o1 :: o2 :: _, none =>
    let sigmaOpp := scoreBid myU opU hist p o2 - scoreBid myU opU hist p o1
    let sigmaSelf := scoreBid myU opU hist p h2 - scoreBid myU opU hist p h1
    let mt := classifyOpponentMove myU opU hist o1 o2
    match hyp1 with
    | some Hyp.hhR =>
      if (mt = .selfish ∨ mt = .concession ∨ mt = .smallConcession ∨ mt = .silent) ∧
          |sigmaOpp| ≤ |sigmaSelf| then
        (hyp1, some Strat.hh)
      else (hyp1, some Strat.r)
    | some Hyp.ccRtt =>
      if mt = .selfish then (some Hyp.ttR, none)
      else if mt = .silent ∨ mt = .concession then (some Hyp.ccR, none)
      else (hyp1, none)
    | _ => (hyp1, none)
  | _, _, _ => (hyp1, rec0)

/-- update_strategy_recognition as a state transformer. -/
def updateStrategyRecognition (s : GState Bid) (p : ℚ) : GState Bid :=
  let pr := updateSRCore myU opU s.receivedBids p s.opponentHypothesis s.recognizedStrategy
    s.recognitionOBidHistory s.recognitionHBidHistory
  { s with opponentHypothesis := pr.1, recognizedStrategy := pr.2 }

/-- opponent_action on an Offer: create/update the model (implicit in the
received history), update last/last-last, append to the history, record
the bid in the recognition window (10th to 13th received offer), track
the best social-welfare bid, and run strategy recognition in the window.
The progress p is the clock value read inside score_bid during the
recognition update. -/
def opponentOffer (s : GState Bid) (b : Bid) (p : ℚ) : GState Bid :=
  let s1 :=
    if s.receivedBids.isEmpty then
      { s with lastLastReceivedBid := some b, lastReceivedBid := some b }
    else
      { s with lastLastReceivedBid := s.lastReceivedBid, lastReceivedBid := some b }
  let s2 := { s1 with receivedBids := s1.receivedBids ++ [b] }
  let s3 :=
    if 10 ≤ s2.receivedBids.length ∧ s2.receivedBids.length ≤ 13 then
      { s2 with recognitionOBidHistory := s2.recognitionOBidHistory ++ [b] }
    else s2
  let s4 :=
    if s3.socialWelfareValue < myU b then
      { s3 with socialWelfareValue := myU b, socialWelfareBid := some b }
    else s3
  if 10 ≤ s4.receivedBids.length ∧ s4.receivedBids.length ≤ 13 then
    updateStrategyRecognition myU opU s4 p
  else s4

/-- accept_condition on a non-null received bid and a non-null candidate;
the four accept branches in code order: score comparison, late-stage
utility floor (utility above 0.8 and progress above 0.95), stubborn
fallback (progress above 0.98, stubborn flag, utility above the
social-welfare value), and the forced-agreement valve (progress above
0.99). -/
def acceptCondition (s : GState Bid) (p : ℚ) (bid next : Bid) : Bool :=
  if scoreBid myU opU s.receivedBids p next < scoreBid myU opU s.receivedBids p bid then true
  else if 4 / 5 < myU bid ∧ 95 / 100 < p then true
  else if 98 / 100 < p ∧ s.opponentStubborn = true ∧ s.socialWelfareValue < myU bid then true
  else if 99 / 100 < p then true
  else false

/-- accept_condition with the stubborn-fallback branch (branch 3 of the
code, line 317) removed; used to state that the branch never decides an
acceptance on reachable states. -/
def acceptNoStubbornBranch (s : GState Bid) (p : ℚ) (bid next : Bid) : Bool :=
  if scoreBid myU opU s.receivedBids p next < scoreBid myU opU s.receivedBids p bid then true
  else if 4 / 5 < myU bid ∧ 95 / 100 < p then true
  else if 99 / 100 < p then true
  else false

/-- accept_condition including the initial None guard on the received
bid, as called from my_turn. -/
def acceptConditionOpt (s : GState Bid) (p : ℚ) (bid : Option Bid) (next : Bid) : Bool :=
  match bid with
  | none => false
  | some b => acceptCondition myU opU s p b next

/-- find_bid.  Result none models an exception escaping the call:
getUtility(None) when no previous own offer exists in the two early
phases, an AttributeError on the None opponent model when the bargaining
filter is nonempty before any offer was received, IndexError on an empty
candidate list, and ZeroDivisionError in the endgame averages over an
empty received history.  In the two early phases the code sorts a list
and then returns bids[0], the head of the (unfiltered) candidate space;
that is modelled verbatim. -/
def findBid (s : GState Bid) (p : ℚ) : Option (FBOut Bid) :=
  let bids := s.bestCandidateSpace
  if p < 3 / 10 then
    match s.lastOfferedBid with
    | none =>
      let sorted := pySortKeyAsc (fun b => |myU b - 3 / 4|) bids
      match sorted with
      | [] => none
      | b :: _ => some ⟨some b, sorted, s.opponentStubborn⟩
    | some lo =>
      let filtered := bids.filter (fun b => decide (myU lo ≤ myU b))
      if filtered.isEmpty then some ⟨some lo, bids, s.opponentStubborn⟩
      else
        match bids with
        | [] => none
        | b :: _ => some ⟨some b, bids, s.opponentStubborn⟩
  else if p < 98 / 100 then
    match s.lastOfferedBid with
    | none => none
    | some lo =>
      let filtered := bids.filter (fun b => decide (myU lo * (9 / 10) ≤ myU b))
      if filtered.isEmpty then some ⟨some lo, bids, s.opponentStubborn⟩
      else if s.receivedBids.isEmpty then none
      else
        match bids with
        | [] => none
        | b :: _ => some ⟨some b, bids, s.opponentStubborn⟩
  else
    if s.receivedBids.isEmpty then none
    else
      let n : ℚ := (s.receivedBids.length : ℚ)
      let avgOpp := (s.receivedBids.map (opU s.receivedBids)).sum / n
      let avgMy := (s.receivedBids.map myU).sum / n
      if 2 / 5 < avgOpp - avgMy ∨ avgMy < 2 / 5 then
        some ⟨s.socialWelfareBid, bids, true⟩
      else
        some ⟨s.lastOfferedBid, bids, s.opponentStubborn⟩

/-- State at the start of my_turn: on the first turn the init flag is set
and initialize_bid_space runs. -/
def turnInitState (s : GState Bid) (sample : List Bid) : GState Bid :=
  if s.bestCandidateSpaceInit then s
  else { initBidSpace myU opU s sample with bestCandidateSpaceInit := true }

/-- The candidate-space re-initialization checkpoints of my_turn, run
after find_bid: at exactly 300 received offers (also setting the final
flag), at 600 and at 900. -/
def turnCheckpoints (s : GState Bid) (sample : List Bid) : GState Bid :=
  let s3 :=
    if s.receivedBids.length = 300 then
      { initBidSpace myU opU s sample with bestCandidateSpaceFinal := true }
    else s
  let s4 := if s3.receivedBids.length = 600 then initBidSpace myU opU s3 sample else s3
  if s4.receivedBids.length = 900 then initBidSpace myU opU s4 sample else s4

/-- The accept-or-offer tail of my_turn, given the candidate returned by
find_bid.  When no bid has been received accept_condition is False and
the candidate is offered (even a Python None one); when a received bid
exists, a Python None candidate crashes inside score_bid. -/
def turnDecide (s : GState Bid) (p : ℚ) (ret : Option Bid) :
    Option (GState Bid × GAction Bid) :=
  match s.lastReceivedBid with
  | none => some ({ s with lastOfferedBid := ret }, GAction.offer ret)
  | some lr =>
    match ret with
    | none => none
    | some c =>
      if acceptCondition myU opU s p lr c then
        some (s, GAction.accept lr)
      else
        some ({ s with lastOfferedBid := some c }, GAction.offer (some c))

/-- my_turn: possibly initialize the candidate space, compute the
candidate via find_bid (the strategy-recognition override in the source
is commented out, so find_bid is always the producer), apply the mutation
find_bid made to the space and the stubborn flag, re-initialize the space
at the 300/600/900 received-offer checkpoints, then accept or offer.
Result none models an unhandled exception: one escaping find_bid, or
score_bid(None) inside accept_condition when the candidate is Python None
while a received bid exists. -/
def myTurn (s : GState Bid) (p : ℚ) (sample : List Bid) :
    Option (GState Bid × GAction Bid) :=
  let s1 := turnInitState myU opU s sample
  match findBid myU opU s1 p with
  | none => none
  | some out =>
    turnDecide myU opU
      (turnCheckpoints myU opU
        { s1 with bestCandidateSpace := out.space, opponentStubborn := out.stubborn } sample)
      p out.ret

/-- Stated from the spec, for comparison with find_bid: the
bargaining-phase candidate the spec prescribes — among candidates whose
own utility is at least 90 percent of the previous offer, the one
maximizing predicted opponent utility. -/
def specBargainBid (s : GState Bid) : Option Bid :=
  match s.lastOfferedBid with
  | none => none
  | some lo =>
    (s.bestCandidateSpace.filter (fun b => decide (myU lo * (9 / 10) ≤ myU b))).argmax
      (opU s.receivedBids)

/-- One controller step for a protocol event (offer received or our
turn); none models an unhandled exception in the handler. -/
def stepEv (s : GState Bid) : GEvent Bid → Option (GState Bid)
  | GEvent.offer b p => some (opponentOffer myU opU s b p)
  | GEvent.yourTurn p sample => (myTurn myU opU s p sample).map Prod.fst

/-- Run a session: fold the event handlers over an event trace from the
freshly constructed agent state. -/
def runEvents (evs : List (GEvent Bid)) : Option (GState Bid) :=
  evs.foldlM (fun s e => stepEv myU opU s e) initState

/-- Invariant of every reachable session state: the probe-bid history
stays empty (the probing override in my_turn is commented out, so nothing
ever appends to it), hence no hypothesis or terminal label is ever set,
and the social-welfare fallback value is at least the own utility of the
last received bid. -/
def sessionInv (s : GState Bid) : Prop :=
  s.recognitionHBidHistory = [] ∧ s.opponentHypothesis = none ∧
    s.recognizedStrategy = none ∧
    ∀ b, s.lastReceivedBid = some b → myU b ≤ s.socialWelfareValue

end Model

/-- Steady-concession pattern on a bid sequence: every consecutive
own-utility delta is at least 0.05. -/
def steadyConcession {Bid : Type} (uf : Bid → ℚ) : List Bid → Bool
  | a :: b :: rest => decide (uf a + 1 / 20 ≤ uf b) && steadyConcession uf (b :: rest)
  | _ => true

/-- Concrete linear own-utility map on natural-number bids: bid i has
own utility i / 20. -/
def uLin : ℕ → ℚ := fun i => (i : ℚ) / 20

/-- Concrete opponent predictor that ignores history and bid. -/
def opZero : List ℕ → ℕ → ℚ := fun _ _ => 0

/-- Concrete plain predicted-utility map (no history argument). -/
def opfZero : ℕ → ℚ := fun _ => 0

/-- Concrete own-utility map for the acceptance-monotonicity analysis:
bid 0 has utility 0.81, bid 1 has 0.5, every other bid has 1. -/
def uMono : ℕ → ℚ := fun i => if i = 0 then 81 / 100 else if i = 1 then 1 / 2 else 1

/-- Concrete predicted opponent utility for the acceptance-monotonicity
analysis: 0 for bid 0, 0.5 for bid 1, 1 otherwise. -/
def opMono : List ℕ → ℕ → ℚ := fun _ i => if i = 0 then 0 else if i = 1 then 1 / 2 else 1

/-- Session state with one received offer (bid 0), as used by the
acceptance-monotonicity analysis. -/
def sMono : GState ℕ :=
  { initState with receivedBids := [0], lastReceivedBid := some 0 }

/-- Concrete own-utility map for the bargaining-phase analysis: bids 0,
1 and 2 have utility 0.5, all others 0. -/
def uBar : ℕ → ℚ := fun i => if i ≤ 2 then 1 / 2 else 0

/-- Concrete predicted opponent utility for the bargaining-phase
analysis: 1 for bid 2, 0 otherwise. -/
def opBar : List ℕ → ℕ → ℚ := fun _ i => if i = 2 then 1 else 0

/-- Bargaining-phase state: candidate space [1, 2], previous own offer
bid 0, one received offer (bid 3). -/
def sBar : GState ℕ :=
  { initState with
      lastOfferedBid := some 0
      bestCandidateSpace := [1, 2]
      bestCandidateSpaceInit := true
      receivedBids := [3]
      lastReceivedBid := some 3 }

/-- Own-utility map for the Pareto-padding analysis: the first 10 bids
have descending positive utility, the rest utility 0. -/
def uPar : ℕ → ℚ := fun i => if i < 10 then 1000 - (i : ℚ) else 0

/-- Predicted opponent utility for the Pareto-padding analysis: the
first 10 bids have ascending utility, the rest utility 0, making bids
0 to 9 a Pareto antichain and every later bid dominated by bid 0. -/
def opPar : ℕ → ℚ := fun i => if i < 10 then (i : ℚ) else 0

/-- A 150-element top-candidate list, already descending by uPar. -/
def topPar : List ℕ := List.range 150

/-- Own-utility map with a single maximal bid 0, so that the Pareto
filter keeps bid 0 only. -/
def uOne : ℕ → ℚ := fun i => if i = 0 then 1 else 0

/-- Ten opponent offers (bids 0 to 9), reaching the start of the
probing window. -/
def c1offers : List (GEvent ℕ) := (List.range 10).map (fun i => GEvent.offer i (1 / 2))

/-- Ten offers followed by one of our turns inside the probing window. -/
def c1trace : List (GEvent ℕ) := c1offers ++ [GEvent.yourTurn (1 / 10) [5, 3]]

/-- The session state right after the ten offers of c1offers. -/
def c1s : GState ℕ := (runEvents uLin opZero c1offers).getD initState

/-- The state and action produced by the in-window turn from c1s. -/
def c1res : GState ℕ × GAction ℕ :=
  (myTurn uLin opZero c1s (1 / 10) [5, 3]).getD (initState, GAction.offer none)

/-- A state in which one offer (bid 2) has been received and an own
offer (bid 1) is outstanding, with the init flag set: every fallback
hypothesis of the turn handler holds. -/
def c2s : GState ℕ :=
  { initState with
      bestCandidateSpaceInit := true
      bestCandidateSpace := [2]
      receivedBids := [2]
      lastReceivedBid := some 2
      lastOfferedBid := some 1
      socialWelfareBid := some 2
      socialWelfareValue := 1 / 10 }

/-- Thirteen opponent offers whose own utility to the agent rises by
exactly 0.05 each round: a steady concession covering the whole probing
window (received offers 10 to 13 are bids 9 to 12). -/
def c6trace : List (GEvent ℕ) := (List.range 13).map (fun i => GEvent.offer i (1 / 2))

/-- The session state after the thirteen steadily conceding offers. -/
def c6s : GState ℕ := (runEvents uLin opZero c6trace).getD initState

/-- The session state after a single received offer, used to witness the
reachable-state invariants. -/
def c9s : GState ℕ := (runEvents uLin opZero [GEvent.offer 1 (1 / 2)]).getD initState

section Claims

attribute [local semireducible] Rat.add Rat.sub Rat.mul Rat.inv

set_option maxRecDepth 1000000

/-- initialize_bid_space writes only the candidate space. -/
theorem initBidSpace_core {Bid : Type} [DecidableEq Bid]
    (myU : Bid → ℚ) (opU : List Bid → Bid → ℚ) (s : GState Bid) (sample : List Bid) :
    coreFields (initBidSpace myU opU s sample) = coreFields s := by
  unfold initBidSpace
  dsimp only
  repeat' split
  all_goals rfl

/-- The turn-start initialization writes only the candidate space and
the init flag. -/
theorem turnInitState_core {Bid : Type} [DecidableEq Bid]
    (myU : Bid → ℚ) (opU : List Bid → Bid → ℚ) (s : GState Bid) (sample : List Bid) :
    coreFields (turnInitState myU opU s sample) = coreFields s := by
  unfold turnInitState
  split
  · rfl
  · exact initBidSpace_core myU opU s sample

/-- The checkpoint re-initializations write only the candidate space and
the final flag. -/
theorem turnCheckpoints_core {Bid : Type} [DecidableEq Bid]
    (myU : Bid → ℚ) (opU : List Bid → Bid → ℚ) (s : GState Bid) (sample : List Bid) :
    coreFields (turnCheckpoints myU opU s sample) = coreFields s := by
  unfold turnCheckpoints
  dsimp only
  split
  · split
    · split
      · exact (initBidSpace_core myU opU _ sample).trans
          ((initBidSpace_core myU opU _ sample).trans (initBidSpace_core myU opU s sample))
      · exact (initBidSpace_core myU opU _ sample).trans (initBidSpace_core myU opU s sample)
    · split
      · exact (initBidSpace_core myU opU _ sample).trans (initBidSpace_core myU opU s sample)
      · exact initBidSpace_core myU opU s sample
  · split
    · split
      · exact (initBidSpace_core myU opU _ sample).trans (initBidSpace_core myU opU s sample)
      · exact initBidSpace_core myU opU s sample
    · split
      · exact initBidSpace_core myU opU s sample
      · rfl

/-- The accept-or-offer tail writes only the last offered bid. -/
theorem turnDecide_core {Bid : Type} [DecidableEq Bid]
    (myU : Bid → ℚ) (opU : List Bid → Bid → ℚ) (s : GState Bid) (p : ℚ)
    (ret : Option Bid) (s2 : GState Bid) (a : GAction Bid)
    (h : turnDecide myU opU s p ret = some (s2, a)) :
    coreFields s2 = coreFields s := by
  unfold turnDecide at h
  split at h
  · simp only [Option.some.injEq, Prod.mk.injEq] at h
    obtain ⟨h2, h3⟩ := h
    subst h2
    rfl
  · split at h
    · cases h
    · split at h
      · simp only [Option.some.injEq, Prod.mk.injEq] at h
        obtain ⟨h2, h3⟩ := h
        subst h2
        rfl
      · simp only [Option.some.injEq, Prod.mk.injEq] at h
        obtain ⟨h2, h3⟩ := h
        subst h2
        rfl

/-- my_turn never changes the recognition state, the last received bid,
the social-welfare data or the received history. -/
theorem myTurn_core {Bid : Type} [DecidableEq Bid]
    (myU : Bid → ℚ) (opU : List Bid → Bid → ℚ) (s : GState Bid) (p : ℚ)
    (sample : List Bid) (s2 : GState Bid) (a : GAction Bid)
    (h : myTurn myU opU s p sample = some (s2, a)) :
    coreFields s2 = coreFields s := by
  unfold myTurn at h
  dsimp only at h
  split at h
  · cases h
  · refine (turnDecide_core myU opU _ p _ s2 a h).trans ?_
    refine (turnCheckpoints_core myU opU _ sample).trans ?_
    exact turnInitState_core myU opU s sample

/-- update_strategy_recognition with an empty probe-bid history changes
nothing: both guard patterns require at least two probe bids. -/
theorem updateSRCore_nil {Bid : Type} [DecidableEq Bid]
    (myU : Bid → ℚ) (opU : List Bid → Bid → ℚ) (hist : List Bid) (p : ℚ)
    (hyp0 : Option Hyp) (rec0 : Option Strat) (oH : List Bid) :
    updateSRCore myU opU hist p hyp0 rec0 oH [] = (hyp0, rec0) := rfl

/-- update_strategy_recognition leaves the hypothesis and label unchanged
whenever the probe-bid history is empty. -/
theorem updateSR_nilH {Bid : Type} [DecidableEq Bid]
    (myU : Bid → ℚ) (opU : List Bid → Bid → ℚ) (s : GState Bid) (p : ℚ)
    (hh : s.recognitionHBidHistory = []) :
    (updateStrategyRecognition myU opU s p).opponentHypothesis = s.opponentHypothesis ∧
      (updateStrategyRecognition myU opU s p).recognizedStrategy = s.recognizedStrategy := by
  unfold updateStrategyRecognition
  dsimp only
  rw [hh, updateSRCore_nil]
  exact ⟨rfl, rfl⟩

/-- Handling a received offer preserves the session invariant: the
probe-bid history is never appended to, so the recognition update is a
no-op on the hypothesis and the label, and the social-welfare value is
raised to at least the received bid's own utility. -/
theorem opponentOffer_inv {Bid : Type} [DecidableEq Bid]
    (myU : Bid → ℚ) (opU : List Bid → Bid → ℚ) (s : GState Bid) (b : Bid) (p : ℚ)
    (hinv : sessionInv myU s) : sessionInv myU (opponentOffer myU opU s b p) := by
  obtain ⟨hH, hHyp, hRec, hSW⟩ := hinv
  unfold opponentOffer
  dsimp only
  repeat' split
  all_goals refine ⟨?_, ?_, ?_, ?_⟩
  all_goals try exact hH
  all_goals try exact ((updateSR_nilH myU opU _ p (by exact hH)).1).trans (by exact hHyp)
  all_goals try exact ((updateSR_nilH myU opU _ p (by exact hH)).2).trans (by exact hRec)
  all_goals try exact hHyp
  all_goals try exact hRec
  all_goals intro b0 hb0
  all_goals injection hb0 with e
  all_goals subst e
  all_goals try exact le_refl _
  all_goals exact not_lt.mp (by assumption)

/-- One controller step preserves the session invariant. -/
theorem stepEv_inv {Bid : Type} [DecidableEq Bid]
    (myU : Bid → ℚ) (opU : List Bid → Bid → ℚ) (s s2 : GState Bid) (e : GEvent Bid)
    (h : stepEv myU opU s e = some s2) (hinv : sessionInv myU s) : sessionInv myU s2 := by
  cases e with
  | offer b p =>
    unfold stepEv at h
    simp only [Option.some.injEq] at h
    subst h
    exact opponentOffer_inv myU opU s b p hinv
  | yourTurn p sample =>
    unfold stepEv at h
    obtain ⟨pair, hmT, hfst⟩ := Option.map_eq_some'.mp h
    subst hfst
    have hc := myTurn_core myU opU s p sample pair.1 pair.2
      (by rw [← hmT])
    simp only [coreFields, Prod.mk.injEq] at hc
    obtain ⟨h1, h2, h3, h4, h5, h6, h7, h8⟩ := hc
    obtain ⟨iH, iHyp, iRec, iSW⟩ := hinv
    refine ⟨h1.trans iH, h3.trans iHyp, h4.trans iRec, ?_⟩
    intro b0 hb0
    rw [h6]
    exact iSW b0 (h5.symm.trans hb0)

/-- Every state reachable by running a trace of events from the initial
state satisfies the session invariant. -/
theorem runEvents_inv {Bid : Type} [DecidableEq Bid]
    (myU : Bid → ℚ) (opU : List Bid → Bid → ℚ) (evs : List (GEvent Bid)) (s : GState Bid)
    (hrun : runEvents myU opU evs = some s) : sessionInv myU s := by
  have hgen : ∀ (l : List (GEvent Bid)) (s0 sF : GState Bid), sessionInv myU s0 →
      l.foldlM (fun st e => stepEv myU opU st e) s0 = some sF → sessionInv myU sF := by
    intro l
    induction l with
    | nil =>
      intro s0 sF h0 hf
      rw [List.foldlM_nil] at hf
      cases hf
      exact h0
    | cons e rest ih =>
      intro s0 sF h0 hf
      rw [List.foldlM_cons] at hf
      cases hstep : stepEv myU opU s0 e with
      | none => rw [hstep] at hf; cases hf
      | some s1 =>
        rw [hstep] at hf
        exact ih s1 sF (stepEv_inv myU opU s0 s1 e hstep h0) (by simpa using hf)
  have hinit : sessionInv myU (initState : GState Bid) :=
    ⟨rfl, rfl, rfl, fun b hb => Option.noConfusion hb⟩
  exact hgen evs initState s hinit hrun

/-- C4: at progress 0.999 accept_condition returns True for every
non-null received bid, every candidate, every utility profile, every
opponent-model state and every stubborn flag: the forced-agreement
safety valve at the absolute final threshold 0.99 always fires. -/
theorem c4_forced_agreement_valve {Bid : Type} [DecidableEq Bid]
    (myU : Bid → ℚ) (opU : List Bid → Bid → ℚ) (s : GState Bid) (b next : Bid) :
    acceptCondition myU opU s (999 / 1000) b next = true := by
  unfold acceptCondition
  split
  · rfl
  split
  · rfl
  split
  · rfl
  rw [if_pos (by norm_num : (99 : ℚ) / 100 < 999 / 1000)]

/-- C3 (counterexample): acceptance is not monotone in score.  With one
received offer, progress 0.96 and candidate bid 2: offer 0 (own utility
0.81, score about 0.244) is accepted through the late-stage utility
floor, while offer 1 (own utility 0.5, score 0.5, which is higher) is
rejected, because no accept branch applies to it. -/
theorem c3_counterexample :
    acceptCondition uMono opMono sMono (24 / 25) 0 2 = true ∧
      scoreBid uMono opMono sMono.receivedBids (24 / 25) 0 ≤
        scoreBid uMono opMono sMono.receivedBids (24 / 25) 1 ∧
      acceptCondition uMono opMono sMono (24 / 25) 1 2 = false := by
  refine ⟨by decide, by decide, by decide⟩

/-- C3 (amended): acceptance through the score-comparison branch is
monotone in score — if the candidate scores strictly below offer A, then
every offer B scoring at least A is accepted under the identical state;
the remaining branches compare raw own utility, not score, so full
acceptance is not score-monotone. -/
theorem c3_score_branch_monotone {Bid : Type} [DecidableEq Bid]
    (myU : Bid → ℚ) (opU : List Bid → Bid → ℚ) (s : GState Bid) (p : ℚ) (a b next : Bid)
    (hA : scoreBid myU opU s.receivedBids p next < scoreBid myU opU s.receivedBids p a)
    (hAB : scoreBid myU opU s.receivedBids p a ≤ scoreBid myU opU s.receivedBids p b) :
    acceptCondition myU opU s p b next = true := by
  unfold acceptCondition
  rw [if_pos (lt_of_lt_of_le hA hAB)]

/-- Witness for the amended C3 theorem at a concrete state: candidate 0
scores below offer 1, offer 2 scores above offer 1, and offer 2 is
accepted. -/
theorem c3_score_branch_monotone_witness :
    scoreBid uMono opMono sMono.receivedBids (24 / 25) 0 <
        scoreBid uMono opMono sMono.receivedBids (24 / 25) 1 ∧
      scoreBid uMono opMono sMono.receivedBids (24 / 25) 1 ≤
        scoreBid uMono opMono sMono.receivedBids (24 / 25) 2 ∧
      acceptCondition uMono opMono sMono (24 / 25) 2 0 = true :=
  ⟨by decide, by decide,
    c3_score_branch_monotone uMono opMono sMono (24 / 25) 1 2 0 (by decide) (by decide)⟩

/-- C5 (code bug): in the bargaining phase the code sorts the filtered
candidates by predicted opponent utility but then returns bids[0], the
head of the unfiltered candidate space, not the sorted filtered head.
At the concrete state sBar the code returns bid 1 while the
spec-prescribed candidate (the filtered bid maximizing predicted
opponent utility) is bid 2. -/
theorem c5_bargaining_returns_head_not_argmax :
    findBid uBar opBar sBar (1 / 2) = some ⟨some 1, [1, 2], false⟩ ∧
      specBargainBid uBar opBar sBar = some 2 ∧ (1 : ℕ) ≠ 2 := by
  refine ⟨by decide, by decide, by decide⟩

/-- C7: for every utility pair and every finite bid list, the Pareto
filter keeps no pair (x, y) with x dominating y, and re-filtering the
output returns it unchanged. -/
theorem c7_pareto_filter_sound_and_idempotent {Bid : Type} [DecidableEq Bid]
    (uf opf : Bid → ℚ) (l : List Bid) :
    (∀ x ∈ paretoFilter uf opf l, ∀ y ∈ paretoFilter uf opf l,
        dominates uf opf x y = false) ∧
      paretoFilter uf opf (paretoFilter uf opf l) = paretoFilter uf opf l := by
  have hsub : ∀ x ∈ paretoFilter uf opf l, x ∈ l := fun x hx => List.mem_of_mem_filter hx
  have hkeep : ∀ y ∈ paretoFilter uf opf l,
      (l.any (fun other => decide (other ≠ y) && dominates uf opf other y)) = false := by
    intro y hy
    have h := List.of_mem_filter hy
    simpa using h
  have hnodom : ∀ x ∈ paretoFilter uf opf l, ∀ y ∈ paretoFilter uf opf l,
      dominates uf opf x y = false := by
    intro x hx y hy
    by_cases hxy : x = y
    · subst hxy
      simp [dominates, lt_irrefl]
    · have hany := hkeep y hy
      rw [List.any_eq_false] at hany
      have hx2 := hany x (hsub x hx)
      cases hdom : dominates uf opf x y
      · rfl
      · exact absurd (by simp [hxy, hdom]) hx2
  refine ⟨hnodom, ?_⟩
  apply List.filter_eq_self.mpr
  intro b hb
  have hany := hkeep b hb
  rw [List.any_eq_false] at hany
  simp only [Bool.not_eq_true', List.any_eq_false]
  intro o ho
  exact hany o (hsub o ho)

/-- Witness for the C7 theorem at a concrete input: bid 2 survives the
filter of [1, 2], it does not dominate itself, and the filter is a fixed
point there. -/
theorem c7_pareto_filter_witness :
    dominates uLin opfZero 2 2 = false ∧
      paretoFilter uLin opfZero (paretoFilter uLin opfZero [1, 2]) =
        paretoFilter uLin opfZero [1, 2] :=
  ⟨(c7_pareto_filter_sound_and_idempotent uLin opfZero [1, 2]).1 2 (by decide) 2 (by decide),
    (c7_pareto_filter_sound_and_idempotent uLin opfZero [1, 2]).2⟩

/-- C8 (counterexample): padding ignores membership in the Pareto set.
On the 150-element top list topPar the Pareto set has the 10 antichain
members, so 140 padding bids are appended from the front of the top
list; the first padding bid (bid 0) is already Pareto-optimal, and the
padded working set holds only 140 distinct outcomes, not the claimed
at-least 150. -/
theorem c8_counterexample :
    (paretoFilter uPar opPar topPar).length = 10 ∧
      (paretoPad uPar opPar topPar).length = 150 ∧
      (0 : ℕ) ∈ paretoFilter uPar opPar topPar ∧
      (0 : ℕ) ∈ (paretoPad uPar opPar topPar).drop 10 ∧
      (paretoPad uPar opPar topPar).dedup.length = 140 := by
  refine ⟨by decide, by decide, by decide, by decide, by decide⟩

/-- C8 (amended): when the Pareto subset of the top candidates has fewer
than 150 members and the top list has at least 150, the working set is
the Pareto subset followed by the first (150 - l) top candidates by own
utility, regardless of whether they already appear in the Pareto subset;
it reaches the 150-member floor counted with multiplicity, but not
necessarily 150 distinct outcomes. -/
theorem c8_pad_reaches_floor_with_multiplicity {Bid : Type} [DecidableEq Bid]
    (uf opf : Bid → ℚ) (top : List Bid)
    (hlt : (paretoFilter uf opf top).length < 150) (htop : 150 ≤ top.length) :
    paretoPad uf opf top =
        paretoFilter uf opf top ++ top.take (150 - (paretoFilter uf opf top).length) ∧
      (paretoPad uf opf top).length = 150 := by
  have hlen : (paretoFilter uf opf top ++
      top.take (150 - (paretoFilter uf opf top).length)).length = 150 := by
    rw [List.length_append, List.length_take]
    omega
  have heq : paretoPad uf opf top =
      paretoFilter uf opf top ++ top.take (150 - (paretoFilter uf opf top).length) := by
    unfold paretoPad
    dsimp only
    rw [if_pos hlt, if_neg ?_]
    intro habs
    rw [List.isEmpty_iff] at habs
    rw [habs] at hlen
    simp at hlen
  exact ⟨heq, by rw [heq]; exact hlen⟩

/-- Witness for the amended C8 theorem at a concrete input: with uOne
only bid 0 is Pareto-optimal in topPar, so the padding appends the first
149 top candidates and the result has exactly 150 entries. -/
theorem c8_pad_witness :
    (paretoFilter uOne opfZero topPar).length < 150 ∧ 150 ≤ topPar.length ∧
      (paretoPad uOne opfZero topPar =
          paretoFilter uOne opfZero topPar ++
            topPar.take (150 - (paretoFilter uOne opfZero topPar).length) ∧
        (paretoPad uOne opfZero topPar).length = 150) :=
  ⟨by decide, by decide,
    c8_pad_reaches_floor_with_multiplicity uOne opfZero topPar (by decide) (by decide)⟩

/-- find_bid cannot fail once the candidate space is nonempty, at least
one offer has been received, a previous own offer exists and the
social-welfare fallback bid is set; moreover its returned candidate is
never Python None under these conditions. -/
theorem findBid_total {Bid : Type} [DecidableEq Bid]
    (myU : Bid → ℚ) (opU : List Bid → Bid → ℚ) (s : GState Bid) (p : ℚ)
    (hSpace : s.bestCandidateSpace ≠ [])
    (hRecv : s.receivedBids ≠ [])
    (hOff : s.lastOfferedBid.isSome)
    (hSW : s.socialWelfareBid.isSome) :
    ∃ out : FBOut Bid, findBid myU opU s p = some out ∧ out.ret.isSome := by
  obtain ⟨lo, hlo⟩ := Option.isSome_iff_exists.mp hOff
  obtain ⟨sw, hsw⟩ := Option.isSome_iff_exists.mp hSW
  have hRecvB : ¬ (s.receivedBids.isEmpty = true) := by
    simpa using hRecv
  unfold findBid
  dsimp only
  rw [hlo]
  dsimp only
  simp only [if_neg hRecvB]
  repeat' split
  all_goals try exact ⟨_, rfl, rfl⟩
  all_goals try exact ⟨_, rfl, by rw [hsw]; rfl⟩
  all_goals exact absurd (by assumption) hSpace

/-- The accept-or-offer tail always emits an action when the candidate
is an actual bid. -/
theorem turnDecide_some_isSome {Bid : Type} [DecidableEq Bid]
    (myU : Bid → ℚ) (opU : List Bid → Bid → ℚ) (s : GState Bid) (p : ℚ) (c : Bid) :
    (turnDecide myU opU s p (some c)).isSome = true := by
  unfold turnDecide
  split
  · rfl
  · dsimp only
    split <;> rfl

/-- C2 (counterexample): an "our turn" event can raise.  On the very
first event at progress 0.99 the endgame branch of find_bid divides by
the length of the empty received history (ZeroDivisionError), so no
accept or offer action is emitted. -/
theorem c2_counterexample :
    runEvents uLin opZero [GEvent.yourTurn (99 / 100) [0]] = none := by decide

/-- C2 (amended): once the candidate space is initialized and nonempty,
at least one offer has been received, a previous own offer exists and
the social-welfare fallback bid is set, handling an "our turn" event
always emits an accept or offer action: every empty-candidate condition
inside find_bid is absorbed by a defined fallback.  Without those
preconditions the handler can raise (see the counterexample). -/
theorem c2_turn_emits_action {Bid : Type} [DecidableEq Bid]
    (myU : Bid → ℚ) (opU : List Bid → Bid → ℚ) (s : GState Bid) (p : ℚ) (sample : List Bid)
    (hInit : s.bestCandidateSpaceInit = true)
    (hSpace : s.bestCandidateSpace ≠ [])
    (hRecv : s.receivedBids ≠ [])
    (hOff : s.lastOfferedBid.isSome)
    (hSW : s.socialWelfareBid.isSome) :
    (myTurn myU opU s p sample).isSome = true := by
  have hts : turnInitState myU opU s sample = s := by
    unfold turnInitState
    rw [if_pos hInit]
  obtain ⟨out, hfb, hret⟩ := findBid_total myU opU s p hSpace hRecv hOff hSW
  obtain ⟨c, hc⟩ := Option.isSome_iff_exists.mp hret
  unfold myTurn
  dsimp only
  rw [hts, hfb]
  dsimp only
  rw [hc]
  exact turnDecide_some_isSome myU opU _ p c

/-- Witness for the amended C2 theorem: a concrete state satisfying the
preconditions on which the turn handler emits an action. -/
theorem c2_turn_emits_action_witness :
    c2s.bestCandidateSpaceInit = true ∧ c2s.bestCandidateSpace ≠ [] ∧
      c2s.receivedBids ≠ [] ∧ c2s.lastOfferedBid.isSome ∧ c2s.socialWelfareBid.isSome ∧
      (myTurn uLin opZero c2s (1 / 2) []).isSome = true :=
  ⟨by decide, by decide, by decide, by decide, by decide,
    c2_turn_emits_action uLin opZero c2s (1 / 2) []
      (by decide) (by decide) (by decide) (by decide) (by decide)⟩

/-- C1 (counterexample): a turn taken inside the probing window (here
with exactly 10 received offers) emits an action but appends nothing to
the recognition probe-bid history — the candidate is not produced by the
four-round probing protocol, whose recording step is commented out. -/
theorem c1_counterexample :
    (runEvents uLin opZero c1trace).map (fun s => s.recognitionHBidHistory) = some [] ∧
      (runEvents uLin opZero c1trace).map (fun s => s.receivedBids.length) = some 10 := by
  refine ⟨by decide, by decide⟩

/-- The accept-or-offer tail either accepts some received bid or offers
exactly the candidate it was given. -/
theorem turnDecide_action {Bid : Type} [DecidableEq Bid]
    (myU : Bid → ℚ) (opU : List Bid → Bid → ℚ) (x : GState Bid) (p : ℚ)
    (ret : Option Bid) (s2 : GState Bid) (a : GAction Bid)
    (h : turnDecide myU opU x p ret = some (s2, a)) :
    (∃ lr, a = GAction.accept lr) ∨ a = GAction.offer ret := by
  unfold turnDecide at h
  split at h
  · simp only [Option.some.injEq, Prod.mk.injEq] at h
    exact Or.inr h.2.symm
  · split at h
    · cases h
    · split at h
      · simp only [Option.some.injEq, Prod.mk.injEq] at h
        exact Or.inl ⟨_, h.2.symm⟩
      · simp only [Option.some.injEq, Prod.mk.injEq] at h
        exact Or.inr h.2.symm

/-- C1 (amended): on every turn whose index falls inside the probing
window (10 to 13 received offers), the emitted candidate is still the
one produced by find_bid on the turn-initialized state, and the
recognition probe-bid history is left untouched: the StrategyRecognizer
override never runs. -/
theorem c1_window_candidate_from_find_bid {Bid : Type} [DecidableEq Bid]
    (myU : Bid → ℚ) (opU : List Bid → Bid → ℚ) (s : GState Bid) (p : ℚ)
    (sample : List Bid) (s2 : GState Bid) (a : GAction Bid)
    (_h10 : 10 ≤ s.receivedBids.length) (_h13 : s.receivedBids.length ≤ 13)
    (h : myTurn myU opU s p sample = some (s2, a)) :
    s2.recognitionHBidHistory = s.recognitionHBidHistory ∧
      ∃ out : FBOut Bid, findBid myU opU (turnInitState myU opU s sample) p = some out ∧
        ((∃ lr, a = GAction.accept lr) ∨ a = GAction.offer out.ret) := by
  have hc := myTurn_core myU opU s p sample s2 a h
  simp only [coreFields, Prod.mk.injEq] at hc
  refine ⟨hc.1, ?_⟩
  unfold myTurn at h
  dsimp only at h
  cases hfb : findBid myU opU (turnInitState myU opU s sample) p with
  | none => rw [hfb] at h; cases h
  | some out =>
    rw [hfb] at h
    exact ⟨out, rfl, turnDecide_action myU opU _ p out.ret s2 a h⟩

/-- Witness for the amended C1 theorem: the in-window turn after the ten
offers of c1offers leaves the probe-bid history unchanged and its
candidate comes from find_bid. -/
theorem c1_window_witness :
    10 ≤ c1s.receivedBids.length ∧ c1s.receivedBids.length ≤ 13 ∧
      (myTurn uLin opZero c1s (1 / 10) [5, 3] = some (c1res.1, c1res.2)) ∧
      (c1res.1.recognitionHBidHistory = c1s.recognitionHBidHistory ∧
        ∃ out : FBOut ℕ,
          findBid uLin opZero (turnInitState uLin opZero c1s [5, 3]) (1 / 10) = some out ∧
            ((∃ lr, c1res.2 = GAction.accept lr) ∨ c1res.2 = GAction.offer out.ret)) :=
  ⟨by decide, by decide, by decide,
    c1_window_candidate_from_find_bid uLin opZero c1s (1 / 10) [5, 3] c1res.1 c1res.2
      (by decide) (by decide) (by decide)⟩

/-- C6 (counterexample): thirteen offers whose own utility rises by
exactly 0.05 each round — a steady concession across the whole probing
window (the recorded window offers are bids 9 to 12) — still leave the
recognized label unset, not "CC". -/
theorem c6_counterexample :
    runEvents uLin opZero c6trace = some c6s ∧
      steadyConcession uLin c6s.recognitionOBidHistory = true ∧
      c6s.recognitionOBidHistory.length = 4 ∧
      c6s.recognizedStrategy ≠ some Strat.cc := by
  refine ⟨by decide, by decide, by decide, by decide⟩

/-- C6 (amended): however steadily the opponent concedes during the
probing window, the StrategyRecognizer never concludes any label — the
probing protocol records no probe bids, so neither the hypothesis
updates nor the final analysis ever run, and the label stays unset. -/
theorem c6_steady_concession_no_label {Bid : Type} [DecidableEq Bid]
    (myU : Bid → ℚ) (opU : List Bid → Bid → ℚ) (evs : List (GEvent Bid)) (s : GState Bid)
    (hrun : runEvents myU opU evs = some s)
    (_hpat : steadyConcession myU s.recognitionOBidHistory = true) :
    s.recognizedStrategy = none :=
  (runEvents_inv myU opU evs s hrun).2.2.1

/-- Witness for the amended C6 theorem on the steady-concession trace. -/
theorem c6_steady_concession_witness :
    runEvents uLin opZero c6trace = some c6s ∧
      steadyConcession uLin c6s.recognitionOBidHistory = true ∧
      c6s.recognizedStrategy = none :=
  ⟨by decide, by decide,
    c6_steady_concession_no_label uLin opZero c6trace c6s (by decide) (by decide)⟩

/-- C9: in every reachable execution the hypothesis and the recognized
label stay None for the whole session, and initialize_bid_space on such
a state always takes the unrecognized branch that keeps the top 150
candidates by own utility. -/
theorem c9_recognition_never_fires {Bid : Type} [DecidableEq Bid]
    (myU : Bid → ℚ) (opU : List Bid → Bid → ℚ) (evs : List (GEvent Bid)) (s : GState Bid)
    (hrun : runEvents myU opU evs = some s) :
    s.opponentHypothesis = none ∧ s.recognizedStrategy = none ∧
      ∀ sample, (initBidSpace myU opU s sample).bestCandidateSpace =
        ((pySortKeyDesc myU sample).take 300).take 150 := by
  obtain ⟨h1, h2, h3, h4⟩ := runEvents_inv myU opU evs s hrun
  refine ⟨h2, h3, ?_⟩
  intro sample
  unfold initBidSpace
  dsimp only
  rw [h3]
  simp

/-- Witness for the C9 theorem on a one-offer trace. -/
theorem c9_recognition_witness :
    runEvents uLin opZero [GEvent.offer 1 (1 / 2)] = some c9s ∧
      (c9s.opponentHypothesis = none ∧ c9s.recognizedStrategy = none ∧
        (initBidSpace uLin opZero c9s [5, 3]).bestCandidateSpace =
          ((pySortKeyDesc uLin [5, 3]).take 300).take 150) :=
  ⟨by decide,
    ⟨(c9_recognition_never_fires uLin opZero [GEvent.offer 1 (1 / 2)] c9s (by decide)).1,
      (c9_recognition_never_fires uLin opZero [GEvent.offer 1 (1 / 2)] c9s (by decide)).2.1,
      (c9_recognition_never_fires uLin opZero [GEvent.offer 1 (1 / 2)] c9s (by decide)).2.2
        [5, 3]⟩⟩

/-- C10: on every reachable state the social-welfare value is at least
the own utility of the last received bid (it was raised when that bid
arrived), so the stubborn-fallback acceptance branch — which needs the
received bid's utility to strictly exceed it — never decides an accept:
accept_condition agrees with its branch-3-free variant whatever the
progress, the candidate, and the two fields find_bid may have mutated
before the acceptance check (stubborn flag and candidate space). -/
theorem c10_stubborn_branch_dead {Bid : Type} [DecidableEq Bid]
    (myU : Bid → ℚ) (opU : List Bid → Bid → ℚ) (evs : List (GEvent Bid)) (s : GState Bid)
    (b : Bid) (hrun : runEvents myU opU evs = some s)
    (hlr : s.lastReceivedBid = some b) :
    myU b ≤ s.socialWelfareValue ∧
      ∀ (p : ℚ) (next : Bid) (st : Bool) (sp : List Bid),
        acceptCondition myU opU
            { s with opponentStubborn := st, bestCandidateSpace := sp } p b next =
          acceptNoStubbornBranch myU opU
            { s with opponentStubborn := st, bestCandidateSpace := sp } p b next := by
  have hle := (runEvents_inv myU opU evs s hrun).2.2.2 b hlr
  refine ⟨hle, ?_⟩
  intro p next st sp
  unfold acceptCondition acceptNoStubbornBranch
  dsimp only
  have h3 : ¬ ((98 : ℚ) / 100 < p ∧ st = true ∧ s.socialWelfareValue < myU b) := by
    rintro ⟨-, -, hlt⟩
    exact absurd hlt (not_lt.mpr hle)
  rw [if_neg h3]

/-- Witness for the C10 theorem after one received offer, at concrete
progress 0.985 with the stubborn flag forced on. -/
theorem c10_stubborn_witness :
    c9s.lastReceivedBid = some 1 ∧
      uLin 1 ≤ c9s.socialWelfareValue ∧
      acceptCondition uLin opZero
          { c9s with opponentStubborn := true, bestCandidateSpace := [] }
          (985 / 1000) 1 0 =
        acceptNoStubbornBranch uLin opZero
          { c9s with opponentStubborn := true, bestCandidateSpace := [] }
          (985 / 1000) 1 0 :=
  ⟨by decide,
    (c10_stubborn_branch_dead uLin opZero [GEvent.offer 1 (1 / 2)] c9s 1
      (by decide) (by decide)).1,
    (c10_stubborn_branch_dead uLin opZero [GEvent.offer 1 (1 / 2)] c9s 1
      (by decide) (by decide)).2 (985 / 1000) 0 true []⟩

end Claims

end G30
